import Mathlib

/-!
Verification of the Mergington High School activities service
(`src/app.py`): an in-memory registry mapping activity names to records,
with list-all, signup and unregister operations.

The Python dict of dicts is embedded as an association list of
`String × Activity` preserving insertion order; the FastAPI handlers become
state-passing functions returning an `Except HTTPException String` result
together with the registry after the call (the registry is unchanged on
every `raise` path, exactly as in the source, where `raise` happens before
any mutation).
-/

/-- One activity record, as stored in the in-memory database of `app.py`. -/
structure Activity where
  description : String
  schedule : String
  max_participants : Nat
  participants : List String
deriving DecidableEq, Repr

/-- The in-memory activity database: activity name ↦ record, in insertion
order, mirroring the Python dict `activities`. -/
abbrev Registry := List (String × Activity)

/-- Exception carrying an HTTP status code and a detail message, mirroring
FastAPI's `HTTPException(status_code=..., detail=...)`. -/
structure HTTPException where
  status_code : Nat
  detail : String
deriving DecidableEq, Repr

/-- Dict lookup: the record bound to `name`, if any (`activities[name]`,
with `name in activities` ⟺ the result is `some`). -/
def findActivity : Registry → String → Option Activity
  | [], _ => none
  | (n, a) :: rest, name => if n = name then some a else findActivity rest name

/-- In-place mutation of the record bound to `name` (the effect of
`activities[name]["participants"].append(...)` and the like): the binding
keeps its position, every other binding is untouched. -/
def updateActivity : Registry → String → Activity → Registry
  | [], _, _ => []
  | (n, a) :: rest, name, newA =>
    if n = name then (n, newA) :: rest else (n, a) :: updateActivity rest name newA

/-- The seed data of `app.py`: the `activities` dict as written at module
load, nine activities with two initial participants each. -/
def activities : Registry :=
  [ ("Chess Club",
     { description := "Learn strategies and compete in chess tournaments",
       schedule := "Fridays, 3:30 PM - 5:00 PM",
       max_participants := 12,
       participants := ["michael@mergington.edu", "daniel@mergington.edu"] }),
    ("Programming Class",
     { description := "Learn programming fundamentals and build software projects",
       schedule := "Tuesdays and Thursdays, 3:30 PM - 4:30 PM",
       max_participants := 20,
       participants := ["emma@mergington.edu", "sophia@mergington.edu"] }),
    ("Gym Class",
     { description := "Physical education and sports activities",
       schedule := "Mondays, Wednesdays, Fridays, 2:00 PM - 3:00 PM",
       max_participants := 30,
       participants := ["john@mergington.edu", "olivia@mergington.edu"] }),
    ("Soccer Team",
     { description := "Join the school soccer team for practice and matches",
       schedule := "Mondays and Thursdays, 4:00 PM - 6:00 PM",
       max_participants := 20,
       participants := ["alex@mergington.edu", "lisa@mergington.edu"] }),
    ("Basketball Club",
     { description := "Pickup games and skill development for basketball players",
       schedule := "Tuesdays and Fridays, 4:15 PM - 6:00 PM",
       max_participants := 15,
       participants := ["matt@mergington.edu", "nina@mergington.edu"] }),
    ("Art Club",
     { description := "Explore drawing, painting, and mixed media",
       schedule := "Wednesdays, 3:30 PM - 5:00 PM",
       max_participants := 20,
       participants := ["ava@mergington.edu", "lucas@mergington.edu"] }),
    ("Drama Club",
     { description := "Acting, stagecraft, and school productions",
       schedule := "Thursdays, 4:00 PM - 6:00 PM",
       max_participants := 25,
       participants := ["mia@mergington.edu", "ethan@mergington.edu"] }),
    ("Debate Team",
     { description := "Competitive debate and public speaking practice",
       schedule := "Mondays, 4:30 PM - 6:00 PM",
       max_participants := 18,
       participants := ["oliver@mergington.edu", "charlotte@mergington.edu"] }),
    ("Science Club",
     { description := "Hands-on experiments, projects, and science fairs",
       schedule := "Fridays, 3:30 PM - 4:30 PM",
       max_participants := 25,
       participants := ["liam@mergington.edu", "amelia@mergington.edu"] }) ]

/-- `GET /activities`: `return activities` — the handler returns the stored
mapping itself, unmodified, and performs no mutation. -/
def get_activities (reg : Registry) : Registry := reg

/-- `POST /activities/{activity_name}/signup`: the `signup_for_activity`
handler of `app.py`. Raises 404 when the name is not a key, 400 when the
email is already a participant, otherwise appends the email and returns the
confirmation message. The second component is the registry after the call. -/
def signup_for_activity (reg : Registry) (activity_name email : String) :
    Except HTTPException String × Registry :=
  match findActivity reg activity_name with
  | none => (.error { status_code := 404, detail := "Activity not found" }, reg)
  | some activity =>
    if email ∈ activity.participants then
      (.error { status_code := 400,
                detail := "Student already signed up for this activity" }, reg)
    else
      (.ok ("Signed up " ++ email ++ " for " ++ activity_name),
       updateActivity reg activity_name
         { activity with participants := activity.participants ++ [email] })

/-- Removal of the first occurrence of `e` (Python `list.remove`). -/
def removeFirst : List String → String → List String
  | [], _ => []
  | x :: xs, e => if x = e then xs else x :: removeFirst xs e

/-- Modelled from the spec: the `DELETE /activities/{activity_name}/unregister`
handler (the Leave operation) is described in the spec and exercised by
`tests/test_app.py` but absent from `src/app.py`. Per the spec: fails with
404 "Activity not found" when the name is not a key; fails with 400
"Student is not registered for this activity" when the email is not
currently in `participants`; otherwise removes exactly the one matching
entry and returns "Unregistered {email} from {activity_name}". -/
def unregister_from_activity (reg : Registry) (activity_name email : String) :
    Except HTTPException String × Registry :=
  match findActivity reg activity_name with
  | none => (.error { status_code := 404, detail := "Activity not found" }, reg)
  | some activity =>
    if email ∈ activity.participants then
      (.ok ("Unregistered " ++ email ++ " from " ++ activity_name),
       updateActivity reg activity_name
         { activity with participants := removeFirst activity.participants email })
    else
      (.error { status_code := 400,
                detail := "Student is not registered for this activity" }, reg)

/-- Overwrite the `max_participants` field of the record bound to `name`,
leaving everything else in the registry untouched. Used to express that the
handlers never read the capacity field. -/
def setMax : Registry → String → Nat → Registry
  | [], _, _ => []
  | (n, a) :: rest, name, m =>
    if n = name then (n, { a with max_participants := m }) :: rest
    else (n, a) :: setMax rest name m

/-- One API call against the registry, for reasoning about call sequences. -/
inductive Op where
  | listAll : Op
  | join : String → String → Op
  | leave : String → String → Op
deriving DecidableEq, Repr

/-- The registry state after one call: a raised `HTTPException` leaves the
state as it was. -/
def applyOp (reg : Registry) : Op → Registry
  | Op.listAll => get_activities reg
  | Op.join a e =>
    match signup_for_activity reg a e with
    | (Except.ok _, reg') => reg'
    | (Except.error _, _) => reg
  | Op.leave a e =>
    match unregister_from_activity reg a e with
    | (Except.ok _, reg') => reg'
    | (Except.error _, _) => reg

/-- The registry state after a sequence of calls, applied left to right. -/
def applyOps (reg : Registry) : List Op → Registry
  | [] => reg
  | op :: ops => applyOps (applyOp reg op) ops

/-- Duplicate-freedom: within each activity record in the registry, every
email appears at most once in `participants`. -/
abbrev DupFree (reg : Registry) : Prop :=
  ∀ p ∈ reg, (Prod.snd p).participants.Nodup

/-! ### Basic lemmas about the registry operations -/

theorem findActivity_updateActivity_self {reg : Registry} {name : String}
    {act act' : Activity} (h : findActivity reg name = some act) :
    findActivity (updateActivity reg name act') name = some act' := by
  induction reg with
  | nil => simp [findActivity] at h
  | cons p rest ih =>
    obtain ⟨n, a⟩ := p
    by_cases hn : n = name
    · simp [findActivity, updateActivity, hn]
    · simp [findActivity, updateActivity, hn] at h ⊢
      exact ih h

theorem findActivity_updateActivity_ne {reg : Registry} {name other : String}
    {act' : Activity} (h : name ≠ other) :
    findActivity (updateActivity reg name act') other = findActivity reg other := by
  induction reg with
  | nil => rfl
  | cons p rest ih =>
    obtain ⟨n, a⟩ := p
    by_cases hn : n = name
    · subst hn
      simp [findActivity, updateActivity, h]
    · simp [findActivity, updateActivity, hn]
      by_cases ho : n = other
      · simp [ho]
      · simp [ho]
        exact ih

theorem updateActivity_self {reg : Registry} {name : String} {act : Activity}
    (h : findActivity reg name = some act) :
    updateActivity reg name act = reg := by
  induction reg with
  | nil => rfl
  | cons p rest ih =>
    obtain ⟨n, a⟩ := p
    by_cases hn : n = name
    · simp [findActivity, hn] at h
      simp [updateActivity, hn, h]
    · simp [findActivity, hn] at h
      simp [updateActivity, hn, ih h]

theorem removeFirst_append_of_not_mem {ps : List String} {e : String}
    (h : e ∉ ps) : removeFirst (ps ++ [e]) e = ps := by
  induction ps with
  | nil => simp [removeFirst]
  | cons x xs ih =>
    simp only [List.mem_cons, not_or] at h
    simp [removeFirst, Ne.symm h.1, ih h.2]

theorem mem_of_mem_removeFirst {ps : List String} {e x : String}
    (h : x ∈ removeFirst ps e) : x ∈ ps := by
  induction ps with
  | nil => simp [removeFirst] at h
  | cons y ys ih =>
    by_cases hy : y = e
    · simp [removeFirst, hy] at h
      simp [h]
    · simp [removeFirst, hy] at h
      rcases h with h | h
      · simp [h]
      · simp [ih h]

theorem nodup_removeFirst {ps : List String} {e : String}
    (h : ps.Nodup) : (removeFirst ps e).Nodup := by
  induction ps with
  | nil => simp [removeFirst]
  | cons x xs ih =>
    rw [List.nodup_cons] at h
    by_cases hx : x = e
    · simpa [removeFirst, hx] using h.2
    · simp only [removeFirst, hx, if_false, List.nodup_cons]
      exact ⟨fun hm => h.1 (mem_of_mem_removeFirst hm), ih h.2⟩

theorem count_removeFirst_self {ps : List String} {e : String}
    (h : e ∈ ps) : (removeFirst ps e).count e = ps.count e - 1 := by
  induction ps with
  | nil => simp at h
  | cons x xs ih =>
    by_cases hx : x = e
    · subst hx
      simp [removeFirst, List.count_cons_self]
    · simp only [List.mem_cons] at h
      rcases h with h | h
      · exact absurd h.symm hx
      · rw [removeFirst, if_neg hx, List.count_cons, List.count_cons, ih h]
        have hb : (x == e) = false := by simpa using hx
        simp [hb]

theorem count_removeFirst_ne {ps : List String} {e x : String}
    (hx : x ≠ e) : (removeFirst ps e).count x = ps.count x := by
  induction ps with
  | nil => rfl
  | cons y ys ih =>
    by_cases hy : y = e
    · subst hy
      have hb : (y == x) = false := by simpa using fun hc => hx hc.symm
      simp [removeFirst, List.count_cons, hb]
    · rw [removeFirst, if_neg hy, List.count_cons, List.count_cons, ih]

theorem findActivity_mem {reg : Registry} {name : String} {act : Activity}
    (h : findActivity reg name = some act) : (name, act) ∈ reg := by
  induction reg with
  | nil => simp [findActivity] at h
  | cons p rest ih =>
    obtain ⟨n, a⟩ := p
    by_cases hn : n = name
    · simp [findActivity, hn] at h
      simp [hn, h]
    · simp [findActivity, hn] at h
      simp [ih h]

theorem updateActivity_updateActivity {reg : Registry} {name : String}
    {x y : Activity} :
    updateActivity (updateActivity reg name x) name y = updateActivity reg name y := by
  induction reg with
  | nil => rfl
  | cons p rest ih =>
    obtain ⟨n, a⟩ := p
    by_cases hn : n = name
    · simp [updateActivity, hn]
    · simp [updateActivity, hn, ih]

theorem mem_updateActivity {reg : Registry} {name : String} {act : Activity}
    {p : String × Activity} (h : p ∈ updateActivity reg name act) :
    p ∈ reg ∨ Prod.snd p = act := by
  induction reg with
  | nil => simp [updateActivity] at h
  | cons q rest ih =>
    obtain ⟨n, a⟩ := q
    by_cases hn : n = name
    · simp [updateActivity, hn] at h
      rcases h with h | h
      · right
        simp [h]
      · left
        simp [h]
    · simp [updateActivity, hn] at h
      rcases h with h | h
      · left
        simp [h]
      · rcases ih h with h' | h'
        · left
          simp [h']
        · right
          exact h'

theorem dupFree_updateActivity {reg : Registry} {name : String} {act : Activity}
    (hreg : DupFree reg) (hact : act.participants.Nodup) :
    DupFree (updateActivity reg name act) := by
  intro p hp
  rcases mem_updateActivity hp with h | h
  · exact hreg p h
  · rw [h]
    exact hact

theorem findActivity_setMax_self {reg : Registry} {name : String} {m : Nat} :
    findActivity (setMax reg name m) name =
      (findActivity reg name).map (fun a => { a with max_participants := m }) := by
  induction reg with
  | nil => rfl
  | cons p rest ih =>
    obtain ⟨n, a⟩ := p
    by_cases hn : n = name
    · simp [findActivity, setMax, hn]
    · simp [findActivity, setMax, hn, ih]

theorem findActivity_setMax_ne {reg : Registry} {name other : String} {m : Nat}
    (h : name ≠ other) :
    findActivity (setMax reg name m) other = findActivity reg other := by
  induction reg with
  | nil => rfl
  | cons p rest ih =>
    obtain ⟨n, a⟩ := p
    by_cases hn : n = name
    · subst hn
      simp [findActivity, setMax, h]
    · simp [findActivity, setMax, hn]
      by_cases ho : n = other
      · simp [ho]
      · simp [ho, ih]

theorem updateActivity_setMax_self {reg : Registry} {name : String} {m : Nat}
    {y : Activity} :
    updateActivity (setMax reg name m) name y = updateActivity reg name y := by
  induction reg with
  | nil => rfl
  | cons p rest ih =>
    obtain ⟨n, a⟩ := p
    by_cases hn : n = name
    · simp [setMax, updateActivity, hn]
    · simp [setMax, updateActivity, hn, ih]

theorem setMax_updateActivity_self {reg : Registry} {name : String} {m : Nat}
    {x : Activity} :
    setMax (updateActivity reg name x) name m =
      updateActivity reg name { x with max_participants := m } := by
  induction reg with
  | nil => rfl
  | cons p rest ih =>
    obtain ⟨n, a⟩ := p
    by_cases hn : n = name
    · simp [setMax, updateActivity, hn]
    · simp [setMax, updateActivity, hn, ih]

theorem updateActivity_setMax_comm {reg : Registry} {name other : String}
    {m : Nat} {x : Activity} (h : name ≠ other) :
    updateActivity (setMax reg name m) other x =
      setMax (updateActivity reg other x) name m := by
  induction reg with
  | nil => rfl
  | cons p rest ih =>
    obtain ⟨n, a⟩ := p
    by_cases hn : n = name
    · subst hn
      simp [setMax, updateActivity, h, Ne.symm h]
    · by_cases ho : n = other
      · subst ho
        simp [setMax, updateActivity, hn]
      · simp [setMax, updateActivity, hn, ho, ih]

/-! ### Claim theorems -/

/-- C3: for every activity name that is not a key in the registry and every
email, `signup_for_activity` fails with 404 "Activity not found" (and the
registry is unchanged), regardless of the email value. -/
theorem join_not_found_for_unknown_activity (reg : Registry)
    (activity_name email : String) (h : findActivity reg activity_name = none) :
    signup_for_activity reg activity_name email =
      (Except.error { status_code := 404, detail := "Activity not found" }, reg) := by
  simp [signup_for_activity, h]

theorem join_not_found_for_unknown_activity_witness :
    findActivity activities "nope" = none ∧
    signup_for_activity activities "nope" "e@mergington.edu" =
      (Except.error { status_code := 404, detail := "Activity not found" },
       activities) :=
  ⟨by decide,
   join_not_found_for_unknown_activity activities "nope" "e@mergington.edu"
     (by decide)⟩

/-- C2: when the email is already in the activity's participants, signup
fails with 400 "Student already signed up for this activity"; consequently
joining twice in a row has the first call succeed and the second fail with
that conflict error. -/
theorem join_conflict_on_duplicate (reg : Registry) (a e : String)
    (act : Activity) (hf : findActivity reg a = some act) :
    (e ∈ act.participants →
      signup_for_activity reg a e =
        (Except.error { status_code := 400,
                        detail := "Student already signed up for this activity" }, reg))
    ∧ (e ∉ act.participants →
        (signup_for_activity reg a e).1 =
          Except.ok ("Signed up " ++ e ++ " for " ++ a)
        ∧ (signup_for_activity (signup_for_activity reg a e).2 a e).1 =
            Except.error { status_code := 400,
                           detail := "Student already signed up for this activity" }) := by
  constructor
  · intro hm
    simp [signup_for_activity, hf, hm]
  · intro hm
    have h1 : signup_for_activity reg a e =
        (Except.ok ("Signed up " ++ e ++ " for " ++ a),
         updateActivity reg a
           { act with participants := act.participants ++ [e] }) := by
      simp [signup_for_activity, hf, hm]
    refine ⟨by rw [h1], ?_⟩
    rw [h1]
    have hf2 : findActivity
        (updateActivity reg a
          { act with participants := act.participants ++ [e] }) a =
        some { act with participants := act.participants ++ [e] } :=
      findActivity_updateActivity_self hf
    simp [signup_for_activity, hf2]

theorem join_conflict_on_duplicate_witness :
    (signup_for_activity activities "Chess Club" "test@mergington.edu").1 =
      Except.ok "Signed up test@mergington.edu for Chess Club"
    ∧ (signup_for_activity
        (signup_for_activity activities "Chess Club" "test@mergington.edu").2
        "Chess Club" "test@mergington.edu").1 =
      Except.error { status_code := 400,
                     detail := "Student already signed up for this activity" } :=
  (join_conflict_on_duplicate activities "Chess Club" "test@mergington.edu"
    { description := "Learn strategies and compete in chess tournaments",
      schedule := "Fridays, 3:30 PM - 5:00 PM",
      max_participants := 12,
      participants := ["michael@mergington.edu", "daniel@mergington.edu"] }
    (by decide)).2 (by decide)

/-- C4: when the activity exists and the email is not yet a participant,
signup succeeds, the activity's new participants list is the old list with
the email appended at the end (prior entries unchanged, in their prior
order), and the returned confirmation is the message naming the email and
the activity. -/
theorem join_appends_email (reg : Registry) (a e : String) (act : Activity)
    (hf : findActivity reg a = some act) (hm : e ∉ act.participants) :
    signup_for_activity reg a e =
      (Except.ok ("Signed up " ++ e ++ " for " ++ a),
       updateActivity reg a { act with participants := act.participants ++ [e] })
    ∧ findActivity (signup_for_activity reg a e).2 a =
        some { act with participants := act.participants ++ [e] } := by
  have h1 : signup_for_activity reg a e =
      (Except.ok ("Signed up " ++ e ++ " for " ++ a),
       updateActivity reg a
         { act with participants := act.participants ++ [e] }) := by
    simp [signup_for_activity, hf, hm]
  refine ⟨h1, ?_⟩
  rw [h1]
  exact findActivity_updateActivity_self hf

theorem join_appends_email_witness :
    findActivity (signup_for_activity activities "Chess Club"
        "test@mergington.edu").2 "Chess Club" =
      some { description := "Learn strategies and compete in chess tournaments",
             schedule := "Fridays, 3:30 PM - 5:00 PM",
             max_participants := 12,
             participants := ["michael@mergington.edu", "daniel@mergington.edu",
                              "test@mergington.edu"] } :=
  (join_appends_email activities "Chess Club" "test@mergington.edu"
    { description := "Learn strategies and compete in chess tournaments",
      schedule := "Fridays, 3:30 PM - 5:00 PM",
      max_participants := 12,
      participants := ["michael@mergington.edu", "daniel@mergington.edu"] }
    (by decide) (by decide)).2

/-- C10: every failing signup call is atomic — whenever
`signup_for_activity` returns an error (unknown activity or duplicate
email), the registry after the call is exactly the registry before it. -/
theorem failed_join_is_atomic (reg : Registry) (a e : String)
    (err : HTTPException)
    (h : (signup_for_activity reg a e).1 = Except.error err) :
    (signup_for_activity reg a e).2 = reg := by
  cases hf : findActivity reg a with
  | none => simp [signup_for_activity, hf]
  | some act =>
    by_cases hm : e ∈ act.participants
    · simp [signup_for_activity, hf, hm]
    · simp [signup_for_activity, hf, hm] at h

theorem failed_join_is_atomic_witness :
    (signup_for_activity activities "Chess Club" "michael@mergington.edu").1 =
      Except.error { status_code := 400,
                     detail := "Student already signed up for this activity" }
    ∧ (signup_for_activity activities "Chess Club"
        "michael@mergington.edu").2 = activities :=
  ⟨rfl,
   failed_join_is_atomic activities "Chess Club" "michael@mergington.edu"
     { status_code := 400,
       detail := "Student already signed up for this activity" }
     rfl⟩

/-- C6: `get_activities` returns the stored mapping itself for every
registry state — no modification, no error, no state change — and on the
seed it exposes all nine activities exactly as seeded (spot-checked on
"Chess Club"). -/
theorem list_all_returns_stored_mapping :
    (∀ reg : Registry, get_activities reg = reg)
    ∧ (get_activities activities).length = 9
    ∧ findActivity (get_activities activities) "Chess Club" =
        some { description := "Learn strategies and compete in chess tournaments",
               schedule := "Fridays, 3:30 PM - 5:00 PM",
               max_participants := 12,
               participants := ["michael@mergington.edu",
                                "daniel@mergington.edu"] } :=
  ⟨fun _ => rfl, by decide, by decide⟩

/-- C1: for an activity that is a key in the registry, unregister removes
exactly one occurrence of the email when it is present — the count of that
email drops by one, every other email's count is unchanged, the other
fields are untouched and the confirmation message is returned — and fails
with 400 "Student is not registered for this activity" (registry unchanged)
when the email is absent. -/
theorem leave_removes_exactly_one (reg : Registry) (a e : String)
    (act : Activity) (hf : findActivity reg a = some act) :
    (e ∉ act.participants →
      unregister_from_activity reg a e =
        (Except.error { status_code := 400,
                        detail := "Student is not registered for this activity" },
         reg))
    ∧ (e ∈ act.participants →
        (unregister_from_activity reg a e).1 =
          Except.ok ("Unregistered " ++ e ++ " from " ++ a)
        ∧ ∃ act',
            findActivity (unregister_from_activity reg a e).2 a = some act'
            ∧ act'.description = act.description
            ∧ act'.schedule = act.schedule
            ∧ act'.max_participants = act.max_participants
            ∧ act'.participants.count e = act.participants.count e - 1
            ∧ ∀ x, x ≠ e →
                act'.participants.count x = act.participants.count x) := by
  constructor
  · intro hm
    simp [unregister_from_activity, hf, hm]
  · intro hm
    have h1 : unregister_from_activity reg a e =
        (Except.ok ("Unregistered " ++ e ++ " from " ++ a),
         updateActivity reg a
           { act with participants := removeFirst act.participants e }) := by
      simp [unregister_from_activity, hf, hm]
    refine ⟨by rw [h1], ?_⟩
    refine ⟨{ act with participants := removeFirst act.participants e },
      ?_, rfl, rfl, rfl, ?_, ?_⟩
    · rw [h1]
      exact findActivity_updateActivity_self hf
    · exact count_removeFirst_self hm
    · intro x hx
      exact count_removeFirst_ne hx

theorem leave_removes_exactly_one_witness :
    unregister_from_activity activities "Chess Club" "absent@mergington.edu" =
      (Except.error { status_code := 400,
                      detail := "Student is not registered for this activity" },
       activities)
    ∧ (unregister_from_activity activities "Chess Club"
        "michael@mergington.edu").1 =
      Except.ok "Unregistered michael@mergington.edu from Chess Club" :=
  ⟨(leave_removes_exactly_one activities "Chess Club" "absent@mergington.edu"
      { description := "Learn strategies and compete in chess tournaments",
        schedule := "Fridays, 3:30 PM - 5:00 PM",
        max_participants := 12,
        participants := ["michael@mergington.edu", "daniel@mergington.edu"] }
      (by decide)).1 (by decide),
   ((leave_removes_exactly_one activities "Chess Club" "michael@mergington.edu"
      { description := "Learn strategies and compete in chess tournaments",
        schedule := "Fridays, 3:30 PM - 5:00 PM",
        max_participants := 12,
        participants := ["michael@mergington.edu", "daniel@mergington.edu"] }
      (by decide)).2 (by decide)).1⟩

/-- C7: when the activity exists and the email is not yet a participant,
Join followed by Leave for the same email restores the registry exactly —
in particular the activity's participants are the same (so equal as a set)
and the order of all other participants is preserved. -/
theorem join_then_leave_restores (reg : Registry) (a e : String)
    (act : Activity) (hf : findActivity reg a = some act)
    (hm : e ∉ act.participants) :
    (signup_for_activity reg a e).1 =
      Except.ok ("Signed up " ++ e ++ " for " ++ a)
    ∧ (unregister_from_activity (signup_for_activity reg a e).2 a e).1 =
        Except.ok ("Unregistered " ++ e ++ " from " ++ a)
    ∧ (unregister_from_activity (signup_for_activity reg a e).2 a e).2 = reg := by
  have h1 : signup_for_activity reg a e =
      (Except.ok ("Signed up " ++ e ++ " for " ++ a),
       updateActivity reg a
         { act with participants := act.participants ++ [e] }) := by
    simp [signup_for_activity, hf, hm]
  have hf1 : findActivity
      (updateActivity reg a
        { act with participants := act.participants ++ [e] }) a =
      some { act with participants := act.participants ++ [e] } :=
    findActivity_updateActivity_self hf
  have hmem : e ∈ (Activity.participants
      { act with participants := act.participants ++ [e] }) := by
    simp
  have h2 : unregister_from_activity
      (updateActivity reg a { act with participants := act.participants ++ [e] })
      a e =
      (Except.ok ("Unregistered " ++ e ++ " from " ++ a),
       updateActivity
         (updateActivity reg a
           { act with participants := act.participants ++ [e] }) a
         { act with participants :=
             removeFirst (act.participants ++ [e]) e }) := by
    simp [unregister_from_activity, hf1, hmem]
  rw [removeFirst_append_of_not_mem hm, updateActivity_updateActivity] at h2
  have heta : ({ act with participants := act.participants } : Activity)
      = act := rfl
  rw [heta, updateActivity_self hf] at h2
  rw [h1]
  exact ⟨rfl, by rw [h2], by rw [h2]⟩

theorem join_then_leave_restores_witness :
    (unregister_from_activity
        (signup_for_activity activities "Chess Club" "test@mergington.edu").2
        "Chess Club" "test@mergington.edu").2 = activities :=
  (join_then_leave_restores activities "Chess Club" "test@mergington.edu"
    { description := "Learn strategies and compete in chess tournaments",
      schedule := "Fridays, 3:30 PM - 5:00 PM",
      max_participants := 12,
      participants := ["michael@mergington.edu", "daniel@mergington.edu"] }
    (by decide) (by decide)).2.2

/-- C8: for distinct activity names, any signup or unregister call on one
activity — successful or failing — leaves the other activity's entire
record unchanged. -/
theorem mutations_frame_other_activities (reg : Registry) (a b e : String)
    (h : a ≠ b) :
    findActivity (signup_for_activity reg a e).2 b = findActivity reg b
    ∧ findActivity (unregister_from_activity reg a e).2 b =
        findActivity reg b := by
  constructor
  · cases hf : findActivity reg a with
    | none => simp [signup_for_activity, hf]
    | some act =>
      by_cases hm : e ∈ act.participants
      · simp [signup_for_activity, hf, hm]
      · simp [signup_for_activity, hf, hm]
        exact findActivity_updateActivity_ne h
  · cases hf : findActivity reg a with
    | none => simp [unregister_from_activity, hf]
    | some act =>
      by_cases hm : e ∈ act.participants
      · simp [unregister_from_activity, hf, hm]
        exact findActivity_updateActivity_ne h
      · simp [unregister_from_activity, hf, hm]

theorem mutations_frame_other_activities_witness :
    findActivity (signup_for_activity activities "Chess Club"
        "test@mergington.edu").2 "Art Club" =
      findActivity activities "Art Club" :=
  (mutations_frame_other_activities activities "Chess Club" "Art Club"
    "test@mergington.edu" (by decide)).1

theorem dupFree_applyOp {reg : Registry} (h : DupFree reg) (op : Op) :
    DupFree (applyOp reg op) := by
  cases op with
  | listAll => exact h
  | join a e =>
    cases hf : findActivity reg a with
    | none =>
      simpa [applyOp, signup_for_activity, hf] using h
    | some act =>
      by_cases hm : e ∈ act.participants
      · simpa [applyOp, signup_for_activity, hf, hm] using h
      · have hnd : act.participants.Nodup := h (a, act) (findActivity_mem hf)
        have hnd' : (act.participants ++ [e]).Nodup := by
          rw [List.nodup_append]
          exact ⟨hnd, List.nodup_singleton e, by simpa using hm⟩
        simpa [applyOp, signup_for_activity, hf, hm] using
          dupFree_updateActivity h hnd'
  | leave a e =>
    cases hf : findActivity reg a with
    | none =>
      simpa [applyOp, unregister_from_activity, hf] using h
    | some act =>
      by_cases hm : e ∈ act.participants
      · have hnd : act.participants.Nodup := h (a, act) (findActivity_mem hf)
        simpa [applyOp, unregister_from_activity, hf, hm] using
          dupFree_updateActivity h (nodup_removeFirst hnd)
      · simpa [applyOp, unregister_from_activity, hf, hm] using h

/-- C9: duplicate-freedom is an invariant — if every email appears at most
once within each activity's participants list, then after any sequence of
list-all, join and leave calls it still does. -/
theorem dupfree_invariant (reg : Registry) (h : DupFree reg) (ops : List Op) :
    DupFree (applyOps reg ops) := by
  induction ops generalizing reg with
  | nil => exact h
  | cons op ops ih => exact ih _ (dupFree_applyOp h op)

theorem dupfree_invariant_witness :
    DupFree activities
    ∧ DupFree (applyOps activities
        [Op.join "Chess Club" "test@mergington.edu",
         Op.leave "Chess Club" "michael@mergington.edu",
         Op.listAll,
         Op.join "Chess Club" "test@mergington.edu",
         Op.join "Chess Club" "daniel@mergington.edu"]) :=
  ⟨by decide,
   dupfree_invariant activities (by decide)
     [Op.join "Chess Club" "test@mergington.edu",
      Op.leave "Chess Club" "michael@mergington.edu",
      Op.listAll,
      Op.join "Chess Club" "test@mergington.edu",
      Op.join "Chess Club" "daniel@mergington.edu"]⟩

/-- C5: the handlers never read `max_participants` — overwriting any
activity's capacity field commutes with signup, unregister and list-all
(changing only the stored field itself) — and in particular signup
succeeds with no capacity check: when the activity is already at or over
capacity, joining still succeeds and leaves the participants list strictly
longer than `max_participants`. -/
theorem join_ignores_capacity (reg : Registry) (a e : String) :
    (∀ name m, signup_for_activity (setMax reg name m) a e =
        ((signup_for_activity reg a e).1,
         setMax (signup_for_activity reg a e).2 name m))
    ∧ (∀ name m, unregister_from_activity (setMax reg name m) a e =
        ((unregister_from_activity reg a e).1,
         setMax (unregister_from_activity reg a e).2 name m))
    ∧ (∀ name m, get_activities (setMax reg name m) =
        setMax (get_activities reg) name m)
    ∧ (∀ act, findActivity reg a = some act → e ∉ act.participants →
        (signup_for_activity reg a e).1 =
          Except.ok ("Signed up " ++ e ++ " for " ++ a)
        ∧ (act.max_participants ≤ act.participants.length →
            ∃ act', findActivity (signup_for_activity reg a e).2 a = some act'
              ∧ act'.max_participants < act'.participants.length)) := by
  refine ⟨?_, ?_, fun _ _ => rfl, ?_⟩
  · intro name m
    by_cases hna : name = a
    · subst hna
      cases hf : findActivity reg name with
      | none =>
        have hf' : findActivity (setMax reg name m) name = none := by
          rw [findActivity_setMax_self, hf]
          rfl
        simp [signup_for_activity, hf, hf']
      | some act =>
        have hf' : findActivity (setMax reg name m) name =
            some { act with max_participants := m } := by
          rw [findActivity_setMax_self, hf]
          rfl
        by_cases hm2 : e ∈ act.participants
        · simp [signup_for_activity, hf, hf', hm2]
        · simp [signup_for_activity, hf, hf', hm2]
          rw [updateActivity_setMax_self, setMax_updateActivity_self]
    · have hf' : findActivity (setMax reg name m) a = findActivity reg a :=
        findActivity_setMax_ne hna
      cases hf : findActivity reg a with
      | none =>
        rw [hf] at hf'
        simp [signup_for_activity, hf, hf']
      | some act =>
        rw [hf] at hf'
        by_cases hm2 : e ∈ act.participants
        · simp [signup_for_activity, hf, hf', hm2]
        · simp [signup_for_activity, hf, hf', hm2]
          exact updateActivity_setMax_comm hna
  · intro name m
    by_cases hna : name = a
    · subst hna
      cases hf : findActivity reg name with
      | none =>
        have hf' : findActivity (setMax reg name m) name = none := by
          rw [findActivity_setMax_self, hf]
          rfl
        simp [unregister_from_activity, hf, hf']
      | some act =>
        have hf' : findActivity (setMax reg name m) name =
            some { act with max_participants := m } := by
          rw [findActivity_setMax_self, hf]
          rfl
        by_cases hm2 : e ∈ act.participants
        · simp [unregister_from_activity, hf, hf', hm2]
          rw [updateActivity_setMax_self, setMax_updateActivity_self]
        · simp [unregister_from_activity, hf, hf', hm2]
    · have hf' : findActivity (setMax reg name m) a = findActivity reg a :=
        findActivity_setMax_ne hna
      cases hf : findActivity reg a with
      | none =>
        rw [hf] at hf'
        simp [unregister_from_activity, hf, hf']
      | some act =>
        rw [hf] at hf'
        by_cases hm2 : e ∈ act.participants
        · simp [unregister_from_activity, hf, hf', hm2]
          exact updateActivity_setMax_comm hna
        · simp [unregister_from_activity, hf, hf', hm2]
  · intro act hf hm
    have h1 : signup_for_activity reg a e =
        (Except.ok ("Signed up " ++ e ++ " for " ++ a),
         updateActivity reg a
           { act with participants := act.participants ++ [e] }) := by
      simp [signup_for_activity, hf, hm]
    refine ⟨by rw [h1], fun hlen => ?_⟩
    refine ⟨{ act with participants := act.participants ++ [e] }, ?_, ?_⟩
    · rw [h1]
      exact findActivity_updateActivity_self hf
    · simp
      omega

theorem join_ignores_capacity_witness :
    ∃ act', findActivity (signup_for_activity (setMax activities "Chess Club" 1)
        "Chess Club" "test@mergington.edu").2 "Chess Club" = some act'
      ∧ act'.max_participants < act'.participants.length :=
  ((join_ignores_capacity (setMax activities "Chess Club" 1) "Chess Club"
      "test@mergington.edu").2.2.2
    { description := "Learn strategies and compete in chess tournaments",
      schedule := "Fridays, 3:30 PM - 5:00 PM",
      max_participants := 1,
      participants := ["michael@mergington.edu", "daniel@mergington.edu"] }
    (by decide) (by decide)).2 (by decide)
